import Mathlib

/-!
Verification of the board/piece simulation core of `src/tetris.js` (HTML5tris).

The JavaScript source is shallowly embedded: the board grid `gameBoard` is a
column-major `List (List Cell)` (first index `x`, second index `y`, exactly as
`this.gameBoard[x][y]` in the source), pieces are records mirroring the fields
of `GamePiece`, and each method of `Game` / `GameBoard` / `GamePiece` /
`GameStats` that the claims touch is translated to a pure function of the same
name.  Board positions are `Int`, since a simulated move can place the clone at
coordinate `-1`.  JavaScript `undefined` reads (indexing past the end of an
array) are rendered with `getD` defaults that match the source's observable
behaviour at the use site and are noted in the comments where they occur.
-/

/-- Mirrors `GameBlock` occupancy in a grid slot: the source stores `0` for an
empty slot and a `GameBlock` object (carrying a color index) for an occupied
one; `instanceof GameBlock` tests become a match on `Cell.block`. -/
inductive Cell where
  | empty : Cell
  | block (color : Nat) : Cell
deriving DecidableEq

/-- Column-major board grid, exactly the layout of `this.gameBoard[x][y]`. -/
abbrev Grid := List (List Cell)

/-- Mirrors one entry of `Game.shapes`: a bounding size, the four rotation
bitmasks, and a color index (`{size: ..., blocks: [...], color: ...}`). -/
structure ShapeDescription where
  size : Nat
  blocks : List Nat
  color : Nat
deriving DecidableEq

namespace shapes

/-- Mirrors `Game.shapes.i`. -/
def i : ShapeDescription := ⟨4, [0x0F00, 0x2222, 0x00F0, 0x4444], 0⟩

/-- Mirrors `Game.shapes.j`. -/
def j : ShapeDescription := ⟨4, [0x44C0, 0x8E00, 0x6440, 0x0E20], 1⟩

/-- Mirrors `Game.shapes.l`. -/
def l : ShapeDescription := ⟨3, [0x4460, 0x0E80, 0xC440, 0x2E00], 2⟩

/-- Mirrors `Game.shapes.o`. -/
def o : ShapeDescription := ⟨2, [0xCC00, 0xCC00, 0xCC00, 0xCC00], 3⟩

/-- Mirrors `Game.shapes.s`. -/
def s : ShapeDescription := ⟨3, [0x06C0, 0x8C40, 0x6C00, 0x4620], 4⟩

/-- Mirrors `Game.shapes.t`. -/
def t : ShapeDescription := ⟨3, [0x0E40, 0x4C40, 0x4E00, 0x4640], 5⟩

/-- Mirrors `Game.shapes.z`. -/
def z : ShapeDescription := ⟨3, [0x0C60, 0x4C80, 0xC600, 0x2640], 6⟩

end shapes

/-- The seven entries of the `Game.shapes` object, in source order. -/
def shapesList : List ShapeDescription :=
  [shapes.i, shapes.j, shapes.l, shapes.o, shapes.s, shapes.t, shapes.z]

/-- Mirrors `Game.difficultyTimeouts`. -/
def difficultyTimeouts : List Nat :=
  [1000, 750, 625, 500, 425, 300, 250, 225, 200, 175]

/-- Mirrors `Game.pointsAwardedForLines`. -/
def pointsAwardedForLines : List Nat := [40, 100, 300, 1200]

/-- Mirrors `Game.scorePerLevel` (note: the source literal has nine entries). -/
def scorePerLevel : List Nat :=
  [1200, 1200 * 4, 1200 * 8, 1200 * 16, 1200 * 32, 1200 * 64, 1200 * 128,
   1200 * 256, 1200 * 512]

/-- Mirrors `Game.hexValues`, the per-`(i,j)` bit-weight table. -/
def hexValues : List (List Nat) :=
  [[0x8000, 0x0800, 0x0080, 0x0008],
   [0x4000, 0x0400, 0x0040, 0x0004],
   [0x2000, 0x0200, 0x0020, 0x0002],
   [0x1000, 0x0100, 0x0010, 0x0001]]

/-- Mirrors `Game.indexContainsBlock(i, j, shape)`: bitwise AND of
`hexValues[i][j]` with the shape mask, with JavaScript truthiness of the result
(nonzero means a block is present).  Out-of-range `i`, `j` read `undefined` in
the source, whose AND is `0`, i.e. no block; `getD` with default `0` matches. -/
def indexContainsBlock (i j : Nat) (shape : Nat) : Bool :=
  ((hexValues.getD i []).getD j 0) &&& shape != 0

/-- Mirrors the `{x: ..., y: ...}` position objects. -/
structure Position where
  x : Int
  y : Int
deriving DecidableEq

/-- Mirrors the mutable fields of `GamePiece`: shape description, rotation
index, the lazily-computed `shapeArray` cache (`none` renders the source's
“not yet computed” empty array), the hard-coded `height`/`width` of 4, and the
board position. -/
structure GamePiece where
  shapeDescription : ShapeDescription
  rotation : Nat
  shapeArray : Option (List (List Cell))
  height : Nat
  width : Nat
  position : Position
deriving DecidableEq

/-- Mirrors the body of `GamePiece.computeShape`: a `height × width` array of
cells, reading `shapeDescription.blocks[rotation]` (an out-of-range rotation
reads `undefined`, whose bitwise AND is `0`; `getD 0` matches). -/
def computeShapeArr (p : GamePiece) : List (List Cell) :=
  (List.range p.height).map fun i =>
    (List.range p.width).map fun j =>
      if indexContainsBlock i j (p.shapeDescription.blocks.getD p.rotation 0) then
        Cell.block p.shapeDescription.color
      else
        Cell.empty

/-- Mirrors `GamePiece.computeShape()` as a state update: it stores the
computed array in `this.shapeArray`. -/
def computeShapePiece (p : GamePiece) : GamePiece :=
  { p with shapeArray := some (computeShapeArr p) }

/-- Mirrors the rotation-index update inside `GamePiece.rotate()`:
`if (this.rotation <= 2) this.rotation++; else this.rotation = 0;`. -/
def nextRotation (r : Nat) : Nat :=
  if r ≤ 2 then r + 1 else 0

/-- Mirrors `GamePiece.rotate()`: advance the rotation index and wipe the
`shapeArray` cache (`this.shapeArray = []`). -/
def rotatePiece (p : GamePiece) : GamePiece :=
  { p with rotation := nextRotation p.rotation, shapeArray := none }

/-- Mirrors `GamePiece.move(direction)`: translate the position; an
unrecognized direction falls through the switch and changes nothing. -/
def movePiece (direction : String) (p : GamePiece) : GamePiece :=
  if direction = "right" then { p with position := ⟨p.position.x + 1, p.position.y⟩ }
  else if direction = "left" then { p with position := ⟨p.position.x - 1, p.position.y⟩ }
  else if direction = "down" then { p with position := ⟨p.position.x, p.position.y + 1⟩ }
  else p

/-- Mirrors lines 503–511 of `GameBoard.isValidMove`: a fresh `GamePiece` is
allocated and the `shapeDescription`, `height`, `width`, `rotation` and
`position` fields are copied over (the position into a fresh object); the
fresh piece's `shapeArray` starts out empty. -/
def clonePieceForSim (p : GamePiece) : GamePiece :=
  { shapeDescription := p.shapeDescription
    rotation := p.rotation
    shapeArray := none
    height := p.height
    width := p.width
    position := ⟨p.position.x, p.position.y⟩ }

/-- Mirrors the `switch (direction)` of `GameBoard.isValidMove`: `"rotate"`
rotates the clone, the three move directions translate it, anything else falls
through. -/
def applyDirection (direction : String) (p : GamePiece) : GamePiece :=
  if direction = "rotate" then rotatePiece p
  else if direction = "left" ∨ direction = "right" ∨ direction = "down" then
    movePiece direction p
  else p

/-- Mirrors `GameBoard.isOnBoard(x, y)`:
`x >= 0 && y >= 0 && x < gameBoard.length && y < gameBoard[0].length`. -/
def isOnBoard (g : Grid) (x y : Int) : Bool :=
  decide (0 ≤ x) && decide (0 ≤ y) &&
    decide (x < (g.length : Int)) && decide (y < ((g.getD 0 []).length : Int))

/-- Reads `gameBoard[x][y]`.  A negative or too-large index reads `undefined`
in JavaScript, which fails the `instanceof GameBlock` test exactly as
`Cell.empty` does; `getD Cell.empty` renders that. -/
def cellAt (g : Grid) (x y : Int) : Cell :=
  if 0 ≤ x ∧ 0 ≤ y then (g.getD x.toNat []).getD y.toNat Cell.empty
  else Cell.empty

/-- Mirrors `GameBoard.isOccupied(x, y)`: off-board is treated as occupied,
otherwise the slot must hold a `GameBlock`. -/
def isOccupied (g : Grid) (x y : Int) : Bool :=
  if !(isOnBoard g x y) then true
  else
    match cellAt g x y with
    | Cell.block _ => true
    | Cell.empty => false

/-- Renders the assignment `gameBoard[x][y] = v` for coordinates that passed
`isOnBoard` (so `x, y ≥ 0`). -/
def setCell (g : Grid) (x y : Int) (v : Cell) : Grid :=
  g.set x.toNat ((g.getD x.toNat []).set y.toNat v)

/-- Mirrors the collision scan of `GameBoard.isValidMove` (lines 528–542): for
every slot of the clone's `shapeArray` holding a block, the board coordinate
`position + (i, j)` must be on the board and unoccupied. -/
def collisionScan (board : Grid) (tmpPiece : GamePiece) : Bool :=
  (List.range tmpPiece.height).all fun i =>
    (List.range tmpPiece.width).all fun j =>
      match ((tmpPiece.shapeArray.getD []).getD i []).getD j Cell.empty with
      | Cell.block _ =>
          isOnBoard board (tmpPiece.position.x + i) (tmpPiece.position.y + j) &&
            !(isOccupied board (tmpPiece.position.x + i) (tmpPiece.position.y + j))
      | Cell.empty => true

/-- Mirrors `GameBoard.isValidMove(gamePiece, direction)` with the threading of
the live objects made explicit: the source clones the piece, applies the action
to the clone, recomputes the clone's `shapeArray`, and scans for collisions;
every write in its body targets the clone (`tmpPiece`), so the live board and
piece are returned exactly as they came in. -/
def isValidMoveRun (board : Grid) (gamePiece : GamePiece) (direction : String) :
    Bool × Grid × GamePiece :=
  let tmpPiece := clonePieceForSim gamePiece
  let tmpPiece := applyDirection direction tmpPiece
  let tmpPiece := computeShapePiece tmpPiece
  (collisionScan board tmpPiece, board, gamePiece)

/-- The boolean verdict of `GameBoard.isValidMove`. -/
def isValidMove (board : Grid) (gamePiece : GamePiece) (direction : String) : Bool :=
  (isValidMoveRun board gamePiece direction).1

/-- The index pairs `(i, j)` visited by the nested copy loops of
`GameBoard.bakePiece` (`i` over `rawPiece.height`, `j` over `rawPiece.width`). -/
def bakeIndices (p : GamePiece) : List (Nat × Nat) :=
  (List.range p.height).flatMap fun i => (List.range p.width).map fun j => (i, j)

/-- One iteration of the copy loop of `GameBoard.bakePiece`: compute the board
coordinate `rawPiece.position + (i, j)`, and if it is on the board and the
slot `rawPiece.shapeArray[i][j]` holds a block, write that block into the
grid.  (The source reads the cached `shapeArray` directly, without
recomputing it.) -/
def bakeStep (rawPiece : GamePiece) (g : Grid) (ij : Nat × Nat) : Grid :=
  let boardX := rawPiece.position.x + ij.1
  let boardY := rawPiece.position.y + ij.2
  if isOnBoard g boardX boardY then
    match ((rawPiece.shapeArray.getD []).getD ij.1 []).getD ij.2 Cell.empty with
    | Cell.block c => setCell g boardX boardY (Cell.block c)
    | Cell.empty => g
  else g

/-- Mirrors the grid-merging part of `GameBoard.bakePiece(gamePiece)`
(lines 622–640).  NOTE, faithful to the source: the cells that are copied come
from `this.game.gamePiece` (bound to `rawPiece` on line 624), not from the
`gamePiece` argument; the argument is only tested with `instanceof GamePiece`
(a `null`/non-piece argument makes the whole call a no-op) and later passed to
the line check.  The subsequent `checkLines`/`clearLines`/`selectNextPiece`
calls are modelled separately. -/
def bakePieceGrid (g : Grid) (gamePieceArg : Option GamePiece)
    (rawPiece : GamePiece) : Grid :=
  match gamePieceArg with
  | some _ => (bakeIndices rawPiece).foldl (bakeStep rawPiece) g
  | none => g

/-- Effect of one completed-line collapse on one column of the grid: the inner
two loops of `GameBoard.clearLines` walk `j` from `rowNum` down to `0` doing
`gameBoard[k][j] = gameBoard[k][j-1]` (and `= 0` at `j = 0`); every read
happens before its source slot is overwritten, so slot `j ≤ rowNum` receives
the old slot `j - 1`, slot `0` becomes empty, and slots below `rowNum` are
untouched. -/
def collapseRowCol (rowNum : Nat) (col : List Cell) : List Cell :=
  (List.range col.length).map fun j =>
    if rowNum < j then col.getD j Cell.empty
    else if j = 0 then Cell.empty
    else col.getD (j - 1) Cell.empty

/-- One completed-line collapse applied to every column (`k` ranges over the
whole board width, i.e. every column of the grid). -/
def collapseRowGrid (g : Grid) (rowNum : Nat) : Grid :=
  g.map (collapseRowCol rowNum)

/-- Mirrors `GameStats.score`, `Game.difficulty`, and the period of the active
`Game.ticker`, the three pieces of state read and written by
`GameStats.addScore` / `Game.resetTimer`. -/
structure StatsState where
  score : Nat
  difficulty : Nat
  tickerInterval : Nat
deriving DecidableEq

/-- Mirrors `Game.resetTimer()`: the ticker is re-armed with
`difficultyTimeouts[this.difficulty]`. -/
def resetTimer (st : StatsState) : StatsState :=
  { st with tickerInterval := difficultyTimeouts.getD st.difficulty 0 }

/-- Mirrors `GameStats.addScore(val)`: add the value, then if the new score
exceeds `scorePerLevel[difficulty]` and the difficulty is below 9, advance the
difficulty by one and reset the timer.  For `difficulty ≥ 9` the source reads
`scorePerLevel[difficulty] = undefined` and `score > undefined` is false, which
the `none` branch renders. -/
def addScore (st : StatsState) (val : Nat) : StatsState :=
  let st := { st with score := st.score + val }
  match scorePerLevel[st.difficulty]? with
  | some threshold =>
      if st.score > threshold then
        if st.difficulty < 9 then resetTimer { st with difficulty := st.difficulty + 1 }
        else st
      else st
  | none => st

/-- Mirrors `GameBoard.clearLines(completedLines)`: when there is at least one
completed line, sort the lines ascending (the numeric-comparator
`slice().sort`), award `pointsAwardedForLines[count - 1] * (difficulty + 1)`
via `addScore`, and collapse each sorted line in turn.  Returns the new grid
and the new stats. -/
def clearLines (completedLines : List Nat) (g : Grid) (st : StatsState) :
    Grid × StatsState :=
  if completedLines.length > 0 then
    let sortedLines := List.insertionSort (· ≤ ·) completedLines
    let st' := addScore st
      (pointsAwardedForLines.getD (sortedLines.length - 1) 0 * (st.difficulty + 1))
    (sortedLines.foldl collapseRowGrid g, st')
  else (g, st)

/-- Modelled from the spec: the reference formulation of line clearing that the
spec's refinement claim compares `clearLines` against — “deleting all completed
rows and inserting that many empty rows at the top”.  Per column: erase the
completed indices (largest first, so earlier erasures do not shift later ones:
this is simultaneous deletion of the index set) and prepend that many empty
cells. -/
def referenceClearLines (completedLines : List Nat) (g : Grid) : Grid :=
  g.map fun col =>
    List.replicate completedLines.length Cell.empty ++
      completedLines.foldr (fun r acc => acc.eraseIdx r) col

/-- Mirrors `Math.ceil((gameBoard.width - shapeDescription.size) / 2)`, the
spawn column used by `Game.selectNextPiece` (floor division of the successor
is ceiling division, also for negative numerators). -/
def spawnX (boardWidth : Nat) (size : Nat) : Int :=
  (((boardWidth : Int) - (size : Int)) + 1).fdiv 2

/-- Mirrors the `Game` state touched by `selectNextPiece` / `togglePause`: the
board grid (whose length is `gameBoard.width`), the nullable active piece, the
pre-generated next piece, the three flags, and the ticker (`none` renders a
cleared interval). -/
structure GameState where
  gameBoard : Grid
  gamePiece : Option GamePiece
  nextPiece : GamePiece
  isRunning : Bool
  isPaused : Bool
  isGameOver : Bool
  tickerInterval : Option Nat
deriving DecidableEq

/-- The piece `Game.selectNextPiece` puts in play: the old `nextPiece` with its
position reset to the centered spawn column and `y = 0`. -/
def spawnedPiece (g : GameState) : GamePiece :=
  { g.nextPiece with
      position := ⟨spawnX g.gameBoard.length g.nextPiece.shapeDescription.size, 0⟩ }

/-- Mirrors `Game.togglePause()` as exercised by the claims, i.e. from the
unpaused state: clear the ticker and set `isPaused` (the music call is external
I/O).  From the paused state the source resumes or — after a game over —
re-enters `reset()`/`start()`, whose timer and random-piece effects are
external; no claim exercises that branch, so it is left as the identity and
every theorem about it assumes `isPaused = false`. -/
def togglePauseSim (g : GameState) : GameState :=
  if !g.isPaused then { g with tickerInterval := none, isPaused := true }
  else g

/-- Mirrors `Game.selectNextPiece()` with the random generator made explicit
(`randPiece` stands for the fresh `getRandomPiece()` result): the next piece is
placed at the spawn position and becomes `this.gamePiece`, a new next piece is
drawn, and if the placed piece cannot move down the game-over flag is set and
`togglePause` stops the clock (the game-over music calls are external I/O). -/
def selectNextPiece (g : GameState) (randPiece : GamePiece) : GameState :=
  let placed := spawnedPiece g
  let g1 := { g with gamePiece := some placed, nextPiece := randPiece }
  if isValidMove g1.gameBoard placed "down" then g1
  else togglePauseSim { g1 with isGameOver := true }

/-! Concrete fixtures used by witnesses and counterexamples. -/

/-- An empty board of the spec's boundary-scenario dimensions (width 10,
height 20), column-major. -/
def emptyBoard10x20 : Grid := List.replicate 10 (List.replicate 20 Cell.empty)

/-- A fully occupied 4 × 4 board (no spawn is collision-free). -/
def fullBoard4x4 : Grid := List.replicate 4 (List.replicate 4 (Cell.block 0))

/-- An empty 6 × 6 board. -/
def emptyBoard6x6 : Grid := List.replicate 6 (List.replicate 6 Cell.empty)

/-- An `o` piece (2 × 2 block) at the given board position, cache not yet
computed. -/
def oPieceAt (x y : Int) : GamePiece := ⟨shapes.o, 0, none, 4, 4, ⟨x, y⟩⟩

/-- An `o` piece at the given position with its `shapeArray` cache computed
(the state a live piece is in after having been drawn). -/
def oPieceBaked (x y : Int) : GamePiece := computeShapePiece (oPieceAt x y)

/-- A vertical `i` piece (rotation 1, occupying only mask column `i = 2`) at
the left wall. -/
def iPieceVertical : GamePiece := ⟨shapes.i, 1, none, 4, 4, ⟨0, 0⟩⟩

/-- A `t` piece in spawn rotation. -/
def tPiece0 : GamePiece := ⟨shapes.t, 0, none, 4, 4, ⟨3, 0⟩⟩

/-- A game state about to spawn an `o` piece onto the full 4 × 4 board. -/
def sampleGameOverState : GameState :=
  ⟨fullBoard4x4, none, oPieceAt 0 0, true, false, false, some 1000⟩

/-- A 3-wide, 6-tall board whose rows 2 and 3 (0-indexed) are fully occupied
and whose other rows are not (row 0 holds a block in column 0 only, row 4 in
column 1 only, row 5 in column 2 only). -/
def clearDemoBoard : Grid :=
  [[Cell.block 1, Cell.empty, Cell.block 2, Cell.block 3, Cell.empty, Cell.empty],
   [Cell.empty, Cell.empty, Cell.block 2, Cell.block 3, Cell.block 4, Cell.empty],
   [Cell.empty, Cell.empty, Cell.block 2, Cell.block 3, Cell.empty, Cell.block 5]]

/-- Stats at difficulty 0 with score 1000 and the difficulty-0 interval. -/
def demoStats : StatsState := ⟨1000, 0, 1000⟩

/-- Board cell `(a, b)` is a target of the copy loop of `bakePiece` for the
raw piece `p`: some index pair `(i, j)` inside the loop ranges has
`p.position + (i, j) = (a, b)` and the mask bit of the current rotation set. -/
def mergedCell (p : GamePiece) (a b : Int) : Bool :=
  (bakeIndices p).any fun ij =>
    decide (p.position.x + ij.1 = a) && decide (p.position.y + ij.2 = b) &&
      indexContainsBlock ij.1 ij.2 (p.shapeDescription.blocks.getD p.rotation 0)

/-! ### C9 — configuration table sizes -/

/-- C9 (counterexample): the claim promises ten score-per-level thresholds,
but the `scorePerLevel` literal in the source has nine entries. -/
theorem scorePerLevel_not_ten_entries : scorePerLevel.length ≠ 10 := by decide

/-- C9 (amended): the difficulty-to-interval table has 10 entries, the
score-per-line reward table has 4 entries, the score-per-level threshold table
has 9 entries, and there are exactly 7 shape definitions, each with 4 rotation
masks. -/
theorem config_table_sizes :
    difficultyTimeouts.length = 10 ∧ pointsAwardedForLines.length = 4 ∧
    scorePerLevel.length = 9 ∧ shapesList.length = 7 ∧
    (shapesList.all fun sd => sd.blocks.length = 4) = true := by decide

/-! ### C4 — `isValidMove` mutates neither the live board nor the live piece -/

/-- C4: `isValidMove` threads the live board and piece through unchanged (the
source writes only to the local clone), and its verdict is independent of the
live piece's mutable `shapeArray` cache — the only derived state a probe could
have dirtied — because the clone recomputes its own occupancy. -/
theorem isValidMove_frame (board : Grid) (gamePiece : GamePiece) (direction : String) :
    (isValidMoveRun board gamePiece direction).2.1 = board ∧
    (isValidMoveRun board gamePiece direction).2.2 = gamePiece ∧
    ∀ cache, isValidMove board { gamePiece with shapeArray := cache } direction =
      isValidMove board gamePiece direction :=
  ⟨rfl, rfl, fun _ => rfl⟩

/-! ### C8 — four rotations restore the occupancy -/

/-- C8: from any of the four rotation states, applying `rotate()` four times
yields a computed shape array identical to the one before the rotations. -/
theorem rotate_four_returns_occupancy (p : GamePiece) (h : p.rotation ≤ 3) :
    computeShapeArr (rotatePiece (rotatePiece (rotatePiece (rotatePiece p)))) =
      computeShapeArr p := by
  have hcycle : ∀ r : Nat, r ≤ 3 →
      nextRotation (nextRotation (nextRotation (nextRotation r))) = r := by decide
  simp only [rotatePiece]
  rw [hcycle p.rotation h]
  rfl

/-- C8 witness: the cyclic-rotation theorem instantiated on a concrete `t`
piece in rotation state 0. -/
theorem rotate_four_returns_occupancy_witness :
    computeShapeArr (rotatePiece (rotatePiece (rotatePiece (rotatePiece tPiece0)))) =
      computeShapeArr tPiece0 :=
  rotate_four_returns_occupancy tPiece0 (by decide)

/-! ### C5 — difficulty progression on crossing a threshold -/

/-- C5: `addScore` never skips or regresses a level (the difficulty either
stays or rises by exactly 1), never pushes it past 9, and whenever the
cumulative score crosses the current difficulty's threshold
`scorePerLevel[d]`, the difficulty becomes `d + 1` and the active tick
interval is immediately replaced by `difficultyTimeouts[d + 1]`. -/
theorem addScore_level_up (st : StatsState) (val : Nat) (h9 : st.difficulty ≤ 9) :
    ((addScore st val).difficulty = st.difficulty ∨
      (addScore st val).difficulty = st.difficulty + 1) ∧
    (addScore st val).difficulty ≤ 9 ∧
    (∀ threshold, scorePerLevel[st.difficulty]? = some threshold →
      st.score + val > threshold →
      (addScore st val).difficulty = st.difficulty + 1 ∧
      (addScore st val).tickerInterval = difficultyTimeouts.getD (st.difficulty + 1) 0) := by
  rcases hsp : scorePerLevel[st.difficulty]? with _ | threshold
  · refine ⟨Or.inl ?_, ?_, ?_⟩
    · simp [addScore, hsp]
    · simp [addScore, hsp, h9]
    · intro t ht
      exact absurd ht (by simp)
  · have hlen : st.difficulty < scorePerLevel.length := by
      by_contra hge
      rw [List.getElem?_eq_none (by omega)] at hsp
      exact Option.noConfusion hsp
    have hlen9 : scorePerLevel.length = 9 := rfl
    have hlt9 : st.difficulty < 9 := by omega
    by_cases hgt : st.score + val > threshold
    · refine ⟨Or.inr ?_, ?_, ?_⟩
      · simp [addScore, hsp, hgt, hlt9, resetTimer]
      · simp [addScore, hsp, hgt, hlt9, resetTimer]
        omega
      · intro t ht hgt'
        constructor
        · simp [addScore, hsp, hgt, hlt9, resetTimer]
        · simp [addScore, hsp, hgt, hlt9, resetTimer]
    · refine ⟨Or.inl ?_, ?_, ?_⟩
      · simp [addScore, hsp, hgt]
      · simp [addScore, hsp, hgt, h9]
      · intro t ht hgt'
        injection ht with ht
        exact absurd hgt' (by rw [ht] at hgt; exact hgt)

/-- C5 witness: at difficulty 0 (threshold 1200, interval 1000 ms), adding 100
points to a score of 1150 crosses the threshold, advancing to difficulty 1
with the 750 ms interval. -/
theorem addScore_level_up_witness :
    (addScore ⟨1150, 0, 1000⟩ 100).difficulty = 0 + 1 ∧
    (addScore ⟨1150, 0, 1000⟩ 100).tickerInterval = difficultyTimeouts.getD (0 + 1) 0 :=
  (addScore_level_up ⟨1150, 0, 1000⟩ 100 (by decide)).2.2 1200 rfl (by decide)

/-! ### C2 — failed spawn sets game over but keeps the piece assigned -/

/-- C2 (counterexample): on a board whose every cell is occupied the freshly
spawned piece cannot move down, yet after `selectNextPiece` the game still
holds an active piece — `gamePiece` is not cleared on the game-over path. -/
theorem selectNextPiece_keeps_piece_cex :
    isValidMove sampleGameOverState.gameBoard (spawnedPiece sampleGameOverState)
      "down" = false ∧
    (selectNextPiece sampleGameOverState (oPieceAt 0 0)).gamePiece.isSome = true := by
  decide

/-- C2 (amended): when a newly spawned piece fails `isValidMove(piece,
"down")` at its spawn position (and the game is not paused), the game
immediately sets `isGameOver`, stops the tick clock and marks itself paused —
but the spawned piece remains assigned as the active `gamePiece` (it is not
cleared; it is merely never moved again). -/
theorem selectNextPiece_spawn_blocked (g : GameState) (randPiece : GamePiece)
    (hp : g.isPaused = false)
    (hfail : isValidMove g.gameBoard (spawnedPiece g) "down" = false) :
    (selectNextPiece g randPiece).isGameOver = true ∧
    (selectNextPiece g randPiece).tickerInterval = none ∧
    (selectNextPiece g randPiece).isPaused = true ∧
    (selectNextPiece g randPiece).gamePiece = some (spawnedPiece g) := by
  simp [selectNextPiece, togglePauseSim, hp, hfail]

/-- C2 witness: the amended game-over transition evaluated on the concrete
blocked-spawn state. -/
theorem selectNextPiece_spawn_blocked_witness :
    (selectNextPiece sampleGameOverState (oPieceAt 0 0)).isGameOver = true ∧
    (selectNextPiece sampleGameOverState (oPieceAt 0 0)).tickerInterval = none ∧
    (selectNextPiece sampleGameOverState (oPieceAt 0 0)).isPaused = true ∧
    (selectNextPiece sampleGameOverState (oPieceAt 0 0)).gamePiece =
      some (spawnedPiece sampleGameOverState) :=
  selectNextPiece_spawn_blocked sampleGameOverState (oPieceAt 0 0) rfl (by decide)

/-! ### C7 — wall collisions -/

/-- Helper: reading a mapped range list inside bounds gives the function
value. -/
theorem getD_range_map {α : Type} (n : Nat) (f : Nat → α) (d : α) (k : Nat)
    (hk : k < n) : ((List.range n).map f).getD k d = f k := by
  rw [List.getD_eq_getElem?_getD, List.getElem?_map, List.getElem?_range hk]
  rfl

/-- Helper: the computed shape array reads back, inside bounds, as the bitmask
test against `blocks[rotation]`. -/
theorem computeShapeArr_getD (p : GamePiece) (i j : Nat) (hi : i < p.height)
    (hj : j < p.width) :
    ((computeShapeArr p).getD i []).getD j Cell.empty =
      if indexContainsBlock i j (p.shapeDescription.blocks.getD p.rotation 0) then
        Cell.block p.shapeDescription.color
      else Cell.empty := by
  unfold computeShapeArr
  rw [getD_range_map p.height _ [] i hi, getD_range_map p.width _ Cell.empty j hj]

/-- Helper: the collision scan fails as soon as one occupied slot of the
clone's shape array lands off the board. -/
theorem collisionScan_false_of_offboard (b : Grid) (tmp : GamePiece) (i j : Nat)
    (hi : i < tmp.height) (hj : j < tmp.width)
    (hcell : ((tmp.shapeArray.getD []).getD i []).getD j Cell.empty ≠ Cell.empty)
    (hoff : isOnBoard b (tmp.position.x + i) (tmp.position.y + j) = false) :
    collisionScan b tmp = false := by
  unfold collisionScan
  rw [List.all_eq_false]
  refine ⟨i, List.mem_range.mpr hi, ?_⟩
  rw [Bool.not_eq_true, List.all_eq_false]
  refine ⟨j, List.mem_range.mpr hj, ?_⟩
  rcases hc : ((tmp.shapeArray.getD []).getD i []).getD j Cell.empty with _ | c
  · exact absurd hc hcell
  · simp [hoff]

/-- C7 (amended): a piece at `x = 0` whose current occupancy touches mask
column `i = 0` is rejected when moving left, and a piece at
`x = width - shapeSize` whose occupancy touches mask column `i ≥ shapeSize - 1`
is rejected when moving right — the source rejects a move exactly when some
occupied slot leaves the board or collides, so the wall rejection depends on
which mask columns the current rotation occupies, not on the position alone. -/
theorem isValidMove_walls (b : Grid) (p : GamePiece) :
    (p.position.x = 0 →
      (∃ jj, jj < p.width ∧
        indexContainsBlock 0 jj (p.shapeDescription.blocks.getD p.rotation 0) = true) →
      0 < p.height →
      isValidMove b p "left" = false) ∧
    (p.position.x = (b.length : Int) - (p.shapeDescription.size : Int) →
      (∃ ii jj, ii < p.height ∧ jj < p.width ∧ p.shapeDescription.size ≤ ii + 1 ∧
        indexContainsBlock ii jj (p.shapeDescription.blocks.getD p.rotation 0) = true) →
      isValidMove b p "right" = false) := by
  constructor
  · rintro hx ⟨jj, hjj, hocc⟩ hh
    have hred : isValidMove b p "left" =
        collisionScan b (computeShapePiece (movePiece "left" (clonePieceForSim p))) := rfl
    rw [hred]
    refine collisionScan_false_of_offboard b
      (computeShapePiece (movePiece "left" (clonePieceForSim p))) 0 jj hh hjj ?_ ?_
    · have hc := computeShapeArr_getD (movePiece "left" (clonePieceForSim p)) 0 jj hh hjj
      show ((computeShapeArr (movePiece "left" (clonePieceForSim p))).getD 0 []).getD jj
          Cell.empty ≠ Cell.empty
      rw [hc]
      show (if indexContainsBlock 0 jj (p.shapeDescription.blocks.getD p.rotation 0) then
          Cell.block p.shapeDescription.color else Cell.empty) ≠ Cell.empty
      rw [hocc]
      simp
    · show isOnBoard b (p.position.x - 1 + ((0 : Nat) : Int)) (p.position.y + jj) = false
      have hneg : ¬(0 ≤ p.position.x - 1 + ((0 : Nat) : Int)) := by
        rw [hx]; norm_num
      unfold isOnBoard
      rw [decide_eq_false hneg]
      simp
  · rintro hx ⟨ii, jj, hii, hjj, hsz, hocc⟩
    have hred : isValidMove b p "right" =
        collisionScan b (computeShapePiece (movePiece "right" (clonePieceForSim p))) := rfl
    rw [hred]
    refine collisionScan_false_of_offboard b
      (computeShapePiece (movePiece "right" (clonePieceForSim p))) ii jj hii hjj ?_ ?_
    · have hc := computeShapeArr_getD (movePiece "right" (clonePieceForSim p)) ii jj hii hjj
      show ((computeShapeArr (movePiece "right" (clonePieceForSim p))).getD ii []).getD jj
          Cell.empty ≠ Cell.empty
      rw [hc]
      show (if indexContainsBlock ii jj (p.shapeDescription.blocks.getD p.rotation 0) then
          Cell.block p.shapeDescription.color else Cell.empty) ≠ Cell.empty
      rw [hocc]
      simp
    · show isOnBoard b (p.position.x + 1 + (ii : Int)) (p.position.y + jj) = false
      have hge : ¬(p.position.x + 1 + (ii : Int) < (b.length : Int)) := by
        rw [hx]
        omega
      unfold isOnBoard
      rw [decide_eq_false hge]
      simp

/-- C7 witness: an `o` piece at the left wall has its leftmost mask column
occupied, so `moveLeft` is rejected; at `x = 10 - 2` its rightmost occupied
column forces `moveRight` off the board, so it is rejected. -/
theorem isValidMove_walls_witness :
    isValidMove emptyBoard10x20 (oPieceAt 0 0) "left" = false ∧
    isValidMove emptyBoard10x20 (oPieceAt 8 0) "right" = false :=
  ⟨(isValidMove_walls emptyBoard10x20 (oPieceAt 0 0)).1 rfl
      ⟨0, by decide, by decide⟩ (by decide),
   (isValidMove_walls emptyBoard10x20 (oPieceAt 8 0)).2 (by decide)
      ⟨1, 0, by decide, by decide, by decide, by decide⟩⟩

/-- C7 (counterexample): a vertical `i` piece (rotation 1) sits at `x = 0` but
occupies only mask column `i = 2`, so moving left from the wall is accepted —
the claim that every piece at `x = 0` has `moveLeft` rejected is false. -/
theorem isValidMove_wall_cex :
    iPieceVertical.position.x = 0 ∧
    isValidMove emptyBoard10x20 iPieceVertical "left" = true := by
  exact ⟨rfl, by decide⟩

/-! ### C6 — scoring for cleared lines -/

/-- Helper: `addScore` always adds exactly its argument to the score, on every
branch of the level-up logic. -/
theorem addScore_score (st : StatsState) (val : Nat) :
    (addScore st val).score = st.score + val := by
  rcases h : scorePerLevel[st.difficulty]? with _ | t
  · simp [addScore, h]
  · by_cases hgt : st.score + val > t
    · by_cases hd : st.difficulty < 9
      · simp [addScore, h, hgt, hd, resetTimer]
      · simp [addScore, h, hgt, hd]
    · simp [addScore, h, hgt]

/-- C6: a bake that completes no lines leaves the score unchanged (the guard
in `clearLines` skips `addScore`), and a bake that completes `n` lines, with
`pointsAwardedForLines[n-1]` defined (so `n ≤ 4`), increases the score by
exactly `pointsAwardedForLines[n-1] * (difficulty + 1)`. -/
theorem clearLines_score (completedLines : List Nat) (g : Grid) (st : StatsState) :
    (completedLines = [] → ((clearLines completedLines g st).2).score = st.score) ∧
    (∀ pts, pointsAwardedForLines[completedLines.length - 1]? = some pts →
      1 ≤ completedLines.length →
      ((clearLines completedLines g st).2).score =
        st.score + pts * (st.difficulty + 1)) := by
  constructor
  · intro h
    subst h
    rfl
  · intro pts hpts hlen
    have hlen' : completedLines.length > 0 := hlen
    have hs : (List.insertionSort (· ≤ ·) completedLines).length = completedLines.length :=
      List.length_insertionSort _ _
    unfold clearLines
    rw [if_pos hlen']
    dsimp only
    rw [addScore_score, hs, List.getD_eq_getElem?_getD, hpts]
    rfl

/-- C6 witness: clearing the two full lines of the demo board at difficulty 0
awards `pointsAwardedForLines[1] * (0 + 1) = 100` points on top of the
previous score of 1000. -/
theorem clearLines_score_witness :
    ((clearLines [2, 3] clearDemoBoard demoStats).2).score = 1000 + 100 * (0 + 1) :=
  (clearLines_score [2, 3] clearDemoBoard demoStats).2 100 rfl (by decide)

/-! ### C3 — line collapse refines delete-and-prepend -/

/-- Helper: one collapse of row `rowNum` is the same column as erasing slot
`rowNum` and prepending one empty cell. -/
theorem collapseRowCol_eq (r : Nat) (col : List Cell) (hr : r < col.length) :
    collapseRowCol r col = Cell.empty :: col.eraseIdx r := by
  apply List.ext_getElem?
  intro n
  unfold collapseRowCol
  by_cases hn : n < col.length
  · rw [List.getElem?_map, List.getElem?_range hn]
    simp only [Option.map_some']
    rcases n with _ | m
    · simp
    · rw [List.getElem?_cons_succ, List.getElem?_eraseIdx]
      by_cases hmr : m < r
      · rw [if_pos hmr, if_neg (by omega : ¬r < m + 1), if_neg (by omega : ¬m + 1 = 0)]
        have hm : m < col.length := by omega
        rw [Nat.add_sub_cancel, List.getD_eq_getElem?_getD, List.getElem?_eq_getElem hm]
        simp
      · rw [if_neg hmr, if_pos (by omega : r < m + 1)]
        rw [List.getD_eq_getElem?_getD, List.getElem?_eq_getElem hn]
        simp
  · rw [List.getElem?_eq_none (by simp; omega),
      List.getElem?_eq_none
        (by simp [List.length_eraseIdx_of_lt hr]; omega)]

/-- Helper: erasing a smaller index commutes with erasing a larger one, after
shifting the larger index down by the slot the first erasure removed. -/
theorem eraseIdx_eraseIdx_comm {α : Type} (X : List α) (r s : Nat) (hrs : r < s) :
    (X.eraseIdx r).eraseIdx (s - 1) = (X.eraseIdx s).eraseIdx r := by
  apply List.ext_getElem?
  intro n
  simp only [List.getElem?_eraseIdx]
  split_ifs <;> first | rfl | (exfalso; omega)

/-- Helper: deleting indices that all exceed `r` commutes with the
"erase `r`, prepend one empty cell" step. -/
theorem foldr_eraseIdx_cons_empty (r : Nat) (col : List Cell) (rs : List Nat)
    (h : ∀ s ∈ rs, r < s) :
    rs.foldr (fun s acc => acc.eraseIdx s) (Cell.empty :: col.eraseIdx r) =
      Cell.empty :: (rs.foldr (fun s acc => acc.eraseIdx s) col).eraseIdx r := by
  induction rs with
  | nil => rfl
  | cons s rs ih =>
    have hs : r < s := h s (List.mem_cons_self s rs)
    have htail : ∀ x ∈ rs, r < x := fun x hx => h x (List.mem_cons_of_mem _ hx)
    rw [List.foldr_cons, ih htail, List.foldr_cons]
    obtain ⟨m, rfl⟩ : ∃ m, s = m + 1 := ⟨s - 1, by omega⟩
    rw [List.eraseIdx_cons_succ]
    have hc := eraseIdx_eraseIdx_comm (rs.foldr (fun s acc => acc.eraseIdx s) col) r
      (m + 1) hs
    simp only [Nat.add_sub_cancel] at hc
    rw [hc]

/-- Helper: on one column, sweeping the sorted completed rows with the
source's collapse loop equals deleting those rows and prepending as many
empty cells. -/
theorem foldl_collapse_eq_reference (rs : List Nat) : ∀ col : List Cell,
    rs.Pairwise (· < ·) → (∀ r ∈ rs, r < col.length) →
    rs.foldl (fun c r => collapseRowCol r c) col =
      List.replicate rs.length Cell.empty ++
        rs.foldr (fun r acc => acc.eraseIdx r) col := by
  induction rs with
  | nil => intro col _ _; rfl
  | cons r rs ih =>
    intro col hp hb
    have hr : r < col.length := hb r (List.mem_cons_self r rs)
    have hp' := List.pairwise_cons.mp hp
    have hb' : ∀ s ∈ rs, s < (Cell.empty :: col.eraseIdx r).length := by
      intro s hs
      have h1 := hb s (List.mem_cons_of_mem _ hs)
      have h2 : (col.eraseIdx r).length = col.length - 1 :=
        List.length_eraseIdx_of_lt hr
      simp only [List.length_cons, h2]
      omega
    rw [List.foldl_cons]
    rw [collapseRowCol_eq r col hr]
    rw [ih (Cell.empty :: col.eraseIdx r) hp'.2 hb']
    rw [foldr_eraseIdx_cons_empty r col rs hp'.1]
    rw [List.foldr_cons]
    simp [List.replicate_succ', List.append_assoc]

/-- Helper: the per-line grid collapse distributes over the columns, so the
whole sweep is a per-column fold. -/
theorem foldl_collapseRowGrid_map (rs : List Nat) : ∀ g : Grid,
    rs.foldl collapseRowGrid g =
      g.map fun col => rs.foldl (fun c r => collapseRowCol r c) col := by
  induction rs with
  | nil => intro g; simp
  | cons r rs ih =>
    intro g
    rw [List.foldl_cons]
    rw [show collapseRowGrid g r = g.map (collapseRowCol r) from rfl]
    rw [ih, List.map_map]
    rfl

/-- C3: on any rectangular grid, for any strictly ascending set of completed
row indices that are in range, the sweep performed by `clearLines` (sort
ascending, then for each line shift every row above it down by one) produces
the same grid as the reference formulation that deletes all completed rows at
once and prepends that many empty rows at the top. -/
theorem clearLines_refinement (completedLines : List Nat) (g : Grid) (st : StatsState)
    (hsorted : completedLines.Pairwise (· < ·))
    (hb : ∀ r ∈ completedLines, r < (g.getD 0 []).length)
    (hrect : ∀ col ∈ g, col.length = (g.getD 0 []).length) :
    (clearLines completedLines g st).1 = referenceClearLines completedLines g := by
  by_cases hlen : completedLines.length > 0
  · unfold clearLines
    rw [if_pos hlen]
    dsimp only
    have hsorted' : List.Sorted (· ≤ ·) completedLines :=
      hsorted.imp fun h => le_of_lt h
    rw [hsorted'.insertionSort_eq]
    rw [foldl_collapseRowGrid_map]
    unfold referenceClearLines
    apply List.map_congr_left
    intro col hcol
    exact foldl_collapse_eq_reference completedLines col hsorted
      fun r hr => by rw [hrect col hcol]; exact hb r hr
  · have hnil : completedLines = [] := List.length_eq_zero.mp (by omega)
    subst hnil
    simp [clearLines, referenceClearLines]

/-- C3 witness: clearing rows `{2, 3}` of the demo board leaves two empty rows
at indices 0 and 1, shifts the previously-above content (the row-0 block in
column 0) down by 2, and leaves the content below row 3 unchanged — matching
the delete-and-prepend reference. -/
theorem clearLines_refinement_witness :
    (clearLines [2, 3] clearDemoBoard demoStats).1 =
      [[Cell.empty, Cell.empty, Cell.block 1, Cell.empty, Cell.empty, Cell.empty],
       [Cell.empty, Cell.empty, Cell.empty, Cell.empty, Cell.block 4, Cell.empty],
       [Cell.empty, Cell.empty, Cell.empty, Cell.empty, Cell.empty, Cell.block 5]] :=
  (clearLines_refinement [2, 3] clearDemoBoard demoStats (by decide) (by decide)
    (by decide)).trans (by decide)

/-! ### C1 and C10 — what `bakePiece` merges, and in-bounds safety -/

/-- Helper: `getD` through a `set`, with the in-range condition explicit. -/
theorem getD_set {α : Type} (l : List α) (i : Nat) (v : α) (k : Nat) (d : α) :
    (l.set i v).getD k d = if i = k ∧ i < l.length then v else l.getD k d := by
  rw [List.getD_eq_getElem?_getD, List.getD_eq_getElem?_getD, List.getElem?_set]
  by_cases h1 : i = k
  · subst h1
    by_cases h2 : i < l.length
    · simp [h2]
    · simp [h2, List.getElem?_eq_none (show l.length ≤ i by omega)]
  · simp [h1]

/-- Helper: a bake step never changes the board dimensions (outer length and
every column length). -/
theorem bakeStep_length (p : GamePiece) (g : Grid) (ij : Nat × Nat) :
    (bakeStep p g ij).length = g.length ∧
    ∀ k, ((bakeStep p g ij).getD k []).length = (g.getD k []).length := by
  unfold bakeStep
  split
  · dsimp only
    split
    · constructor
      · simp [setCell]
      · intro k
        unfold setCell
        rw [getD_set]
        split_ifs with h
        · rw [List.length_set, h.1]
        · rfl
    · exact ⟨rfl, fun _ => rfl⟩
  · dsimp only
    constructor
    · split <;> rfl
    · intro k
      split <;> rfl

/-- Helper: `isOnBoard` only reads dimensions, so it is invariant under a bake
step. -/
theorem bakeStep_isOnBoard (p : GamePiece) (g : Grid) (ij : Nat × Nat) (x y : Int) :
    isOnBoard (bakeStep p g ij) x y = isOnBoard g x y := by
  have h := bakeStep_length p g ij
  unfold isOnBoard
  rw [h.1, h.2 0]

/-- Helper: a bake step preserves rectangularity of the grid. -/
theorem bakeStep_rect (p : GamePiece) (g : Grid) (ij : Nat × Nat)
    (hrect : ∀ k, k < g.length → (g.getD k []).length = (g.getD 0 []).length) :
    ∀ k, k < (bakeStep p g ij).length →
      ((bakeStep p g ij).getD k []).length = ((bakeStep p g ij).getD 0 []).length := by
  intro k hk
  have h := bakeStep_length p g ij
  rw [h.2 k, h.2 0]
  exact hrect k (by rw [← h.1]; exact hk)

/-- Helper: unpacking the `isOnBoard` conjunction. -/
theorem isOnBoard_iff (g : Grid) (x y : Int) :
    isOnBoard g x y = true ↔
      0 ≤ x ∧ 0 ≤ y ∧ x < (g.length : Int) ∧ y < ((g.getD 0 []).length : Int) := by
  unfold isOnBoard
  simp [Bool.and_eq_true, decide_eq_true_eq, and_assoc]

/-- Helper: writing one cell does not disturb any other cell. -/
theorem cellAt_setCell_ne (g : Grid) (X Y : Int) (v : Cell) (a b : Int)
    (hX : 0 ≤ X) (hY : 0 ≤ Y) (hne : ¬(X = a ∧ Y = b)) :
    cellAt (setCell g X Y v) a b = cellAt g a b := by
  unfold cellAt setCell
  by_cases hab : 0 ≤ a ∧ 0 ≤ b
  · rw [if_pos hab, if_pos hab, getD_set]
    split_ifs with h
    · have hXa : X = a := by omega
      have hYb : ¬Y = b := fun hyb => hne ⟨hXa, hyb⟩
      rw [getD_set]
      split_ifs with h2
      · exact absurd (by omega : Y = b) hYb
      · rw [h.1]
    · rfl
  · rw [if_neg hab, if_neg hab]

/-- Helper: writing one in-range cell makes `cellAt` read it back. -/
theorem cellAt_setCell_self (g : Grid) (X Y : Int) (v : Cell)
    (hX : 0 ≤ X) (hY : 0 ≤ Y) (hXl : X < (g.length : Int))
    (hYl : Y < ((g.getD X.toNat []).length : Int)) :
    cellAt (setCell g X Y v) X Y = v := by
  unfold cellAt setCell
  rw [if_pos ⟨hX, hY⟩, getD_set, if_pos ⟨rfl, by omega⟩, getD_set,
    if_pos ⟨rfl, by omega⟩]

/-- Helper: a bake step aimed at a different board cell leaves cell `(a, b)`
unchanged. -/
theorem bakeStep_cellAt_ne (p : GamePiece) (g : Grid) (ij : Nat × Nat) (a b : Int)
    (hne : ¬(p.position.x + (ij.1 : Int) = a ∧ p.position.y + (ij.2 : Int) = b)) :
    cellAt (bakeStep p g ij) a b = cellAt g a b := by
  unfold bakeStep
  split
  · dsimp only
    split
    · next hOn =>
      rw [isOnBoard_iff] at hOn
      exact cellAt_setCell_ne g _ _ _ a b (by omega) (by omega) hne
    · rfl
  · dsimp only
    split <;> rfl

/-- Helper: a bake step whose slot holds a block and whose target is on the
board writes that block. -/
theorem bakeStep_hit_write (p : GamePiece) (g : Grid) (ij : Nat × Nat) (c : Nat)
    (hcell : ((p.shapeArray.getD []).getD ij.1 []).getD ij.2 Cell.empty = Cell.block c)
    (hOn : isOnBoard g (p.position.x + ij.1) (p.position.y + ij.2) = true) :
    bakeStep p g ij =
      setCell g (p.position.x + ij.1) (p.position.y + ij.2) (Cell.block c) := by
  unfold bakeStep
  rw [hcell]
  dsimp only
  rw [if_pos hOn]

/-- Helper: a bake step whose slot is empty changes nothing. -/
theorem bakeStep_miss_empty (p : GamePiece) (g : Grid) (ij : Nat × Nat)
    (hcell : ((p.shapeArray.getD []).getD ij.1 []).getD ij.2 Cell.empty = Cell.empty) :
    bakeStep p g ij = g := by
  unfold bakeStep
  rw [hcell]
  dsimp only
  split <;> rfl

/-- Helper: a bake step whose target is off the board changes nothing —
exactly the `isOnBoard` guard of the source. -/
theorem bakeStep_offboard (p : GamePiece) (g : Grid) (ij : Nat × Nat)
    (hOff : isOnBoard g (p.position.x + ij.1) (p.position.y + ij.2) = false) :
    bakeStep p g ij = g := by
  unfold bakeStep
  split
  · dsimp only
    simp [hOff]
  · dsimp only
    split <;> rfl

/-- Helper: merging one loop step into the any-fold of the remaining steps,
stated over abstract booleans. -/
theorem step_ite_merge {α : Type} (P Q O : Bool) (blk cg' cg : α)
    (hPT : P = true → O = true → cg' = blk)
    (hPF : P = true → O = false → cg' = cg)
    (hPQ : P = false → cg' = cg) :
    (if (Q && O) = true then blk else cg') =
      (if ((P || Q) && O) = true then blk else cg) := by
  cases P <;> cases Q <;> cases O <;> simp_all

/-- Helper: pointwise characterisation of the whole copy loop — a board cell
receives the piece's color exactly when it is an in-bounds target of an
occupied slot, and is untouched otherwise. -/
theorem foldl_bakeStep_cellAt (p : GamePiece)
    (hc : p.shapeArray = some (computeShapeArr p)) :
    ∀ (L : List (Nat × Nat)) (g : Grid),
      (∀ ij ∈ L, ij.1 < p.height ∧ ij.2 < p.width) →
      (∀ k, k < g.length → (g.getD k []).length = (g.getD 0 []).length) →
      ∀ a b : Int,
        cellAt (L.foldl (bakeStep p) g) a b =
          if ((L.any fun ij =>
                decide (p.position.x + ij.1 = a) && decide (p.position.y + ij.2 = b) &&
                  indexContainsBlock ij.1 ij.2
                    (p.shapeDescription.blocks.getD p.rotation 0))
              && isOnBoard g a b) = true
          then Cell.block p.shapeDescription.color
          else cellAt g a b := by
  intro L
  induction L with
  | nil =>
    intro g hL hrect a b
    simp
  | cons ij L ihL =>
    intro g hL hrect a b
    rw [List.foldl_cons]
    have hij := hL ij (List.mem_cons_self ij L)
    have hLt : ∀ x ∈ L, x.1 < p.height ∧ x.2 < p.width :=
      fun x hx => hL x (List.mem_cons_of_mem _ hx)
    have hrect' := bakeStep_rect p g ij hrect
    rw [ihL (bakeStep p g ij) hLt hrect' a b]
    rw [bakeStep_isOnBoard p g ij a b]
    have hcellv : ((p.shapeArray.getD []).getD ij.1 []).getD ij.2 Cell.empty =
        if indexContainsBlock ij.1 ij.2 (p.shapeDescription.blocks.getD p.rotation 0)
        then Cell.block p.shapeDescription.color else Cell.empty := by
      rw [hc]
      exact computeShapeArr_getD p ij.1 ij.2 hij.1 hij.2
    simp only [List.any_cons]
    apply step_ite_merge
    · intro hPt hOt
      have hsplit := hPt
      rw [Bool.and_eq_true, Bool.and_eq_true] at hsplit
      have hx : p.position.x + (ij.1 : Int) = a := of_decide_eq_true hsplit.1.1
      have hy : p.position.y + (ij.2 : Int) = b := of_decide_eq_true hsplit.1.2
      have hocc := hsplit.2
      have hOn' : isOnBoard g (p.position.x + ij.1) (p.position.y + ij.2) = true := by
        rw [hx, hy]; exact hOt
      rw [bakeStep_hit_write p g ij p.shapeDescription.color
        (by rw [hcellv, if_pos hocc]) hOn']
      rw [hx, hy]
      have hbounds := (isOnBoard_iff g a b).mp hOt
      apply cellAt_setCell_self g a b _ hbounds.1 hbounds.2.1 hbounds.2.2.1
      have ha : a.toNat < g.length := by omega
      rw [hrect a.toNat ha]
      exact hbounds.2.2.2
    · intro hPt hOf
      have hsplit := hPt
      rw [Bool.and_eq_true, Bool.and_eq_true] at hsplit
      have hx : p.position.x + (ij.1 : Int) = a := of_decide_eq_true hsplit.1.1
      have hy : p.position.y + (ij.2 : Int) = b := of_decide_eq_true hsplit.1.2
      rw [bakeStep_offboard p g ij (by rw [hx, hy]; exact hOf)]
    · intro hPf
      by_cases hhit : p.position.x + (ij.1 : Int) = a ∧ p.position.y + (ij.2 : Int) = b
      · have hoccf : indexContainsBlock ij.1 ij.2
            (p.shapeDescription.blocks.getD p.rotation 0) = false := by
          rw [hhit.1, hhit.2] at hPf
          simpa using hPf
        rw [bakeStep_miss_empty p g ij (by rw [hcellv, hoccf]; simp)]
      · exact bakeStep_cellAt_ne p g ij a b hhit

/-- C1 (amended): `bakePiece(p)` merges into the grid exactly the in-bounds
occupied cells of the game's current active piece (`this.game.gamePiece`,
bound to `rawPiece` in the source) at the active piece's position; the
`gamePiece` argument only gates the operation (`instanceof GamePiece`) and
selects the rows later scanned for completed lines, and plays no role in
which cells are merged. -/
theorem bakePiece_merges_active (g : Grid) (gamePieceArg : GamePiece)
    (rawPiece : GamePiece)
    (hc : rawPiece.shapeArray = some (computeShapeArr rawPiece))
    (hrect : ∀ k, k < g.length → (g.getD k []).length = (g.getD 0 []).length) :
    ∀ a b : Int,
      cellAt (bakePieceGrid g (some gamePieceArg) rawPiece) a b =
        if (mergedCell rawPiece a b && isOnBoard g a b) = true
        then Cell.block rawPiece.shapeDescription.color
        else cellAt g a b := by
  intro a b
  have hL : ∀ ij ∈ bakeIndices rawPiece, ij.1 < rawPiece.height ∧ ij.2 < rawPiece.width := by
    intro ij hij
    unfold bakeIndices at hij
    simp only [List.mem_flatMap, List.mem_map, List.mem_range] at hij
    obtain ⟨i, hi, j, hj, rfl⟩ := hij
    exact ⟨hi, hj⟩
  exact foldl_bakeStep_cellAt rawPiece hc (bakeIndices rawPiece) g hL hrect a b

/-- C1 (counterexample): bake a 6 × 6 empty board passing an `o` piece at
`(3, 3)` as the argument while the game's active piece is an `o` piece at
`(-1, -1)`.  Cell `(3, 3)` is an occupied target of the argument piece yet
stays empty, while cell `(0, 0)` — not a cell of the argument — receives a
block: the merged cells are not those of the argument piece. -/
theorem bakePiece_merges_argument_cex :
    mergedCell (oPieceBaked 3 3) 3 3 = true ∧
    cellAt (bakePieceGrid emptyBoard6x6 (some (oPieceBaked 3 3))
      (oPieceBaked (-1) (-1))) 3 3 = Cell.empty ∧
    cellAt (bakePieceGrid emptyBoard6x6 (some (oPieceBaked 3 3))
      (oPieceBaked (-1) (-1))) 0 0 = Cell.block 3 := by
  decide

/-- C1 witness: the merge characterisation evaluated at a concrete on-board
active piece — the active piece's top-left occupied cell appears on the
board. -/
theorem bakePiece_merges_active_witness :
    cellAt (bakePieceGrid emptyBoard6x6 (some (oPieceBaked 3 3)) (oPieceBaked 1 2))
      1 2 = Cell.block 3 :=
  (bakePiece_merges_active emptyBoard6x6 (oPieceBaked 3 3) (oPieceBaked 1 2) rfl
    (by decide) 1 2).trans (by decide)

/-- Helper: the whole copy loop preserves the grid dimensions. -/
theorem foldl_bakeStep_length (p : GamePiece) :
    ∀ (L : List (Nat × Nat)) (g : Grid),
      (L.foldl (bakeStep p) g).length = g.length ∧
      ∀ k, ((L.foldl (bakeStep p) g).getD k []).length = (g.getD k []).length := by
  intro L
  induction L with
  | nil => intro g; exact ⟨rfl, fun _ => rfl⟩
  | cons ij L ihL =>
    intro g
    rw [List.foldl_cons]
    have h1 := bakeStep_length p g ij
    have h2 := ihL (bakeStep p g ij)
    exact ⟨h2.1.trans h1.1, fun k => (h2.2 k).trans (h1.2 k)⟩

/-- Helper: the copy loop never touches a cell that is off the board. -/
theorem foldl_bakeStep_offboard (p : GamePiece) :
    ∀ (L : List (Nat × Nat)) (g : Grid) (a b : Int),
      isOnBoard g a b = false →
      cellAt (L.foldl (bakeStep p) g) a b = cellAt g a b := by
  intro L
  induction L with
  | nil => intro g a b _; rfl
  | cons ij L ihL =>
    intro g a b hOff
    rw [List.foldl_cons]
    have hOff' : isOnBoard (bakeStep p g ij) a b = false := by
      rw [bakeStep_isOnBoard]; exact hOff
    rw [ihL (bakeStep p g ij) a b hOff']
    by_cases hhit : p.position.x + (ij.1 : Int) = a ∧ p.position.y + (ij.2 : Int) = b
    · rw [bakeStep_offboard p g ij (by rw [hhit.1, hhit.2]; exact hOff)]
    · exact bakeStep_cellAt_ne p g ij a b hhit

/-- C10: `bakePiece` writes only in-bounds cells: the grid dimensions are
preserved (the outer array and every column keep their lengths, so no index
is ever created out of range) and every board coordinate that is off the
board — including those of occupied piece cells hanging over the edge — is
silently skipped and left unchanged, for any piece position whatsoever. -/
theorem bakePiece_inbounds_safe (g : Grid) (gamePieceArg : GamePiece)
    (rawPiece : GamePiece) :
    (bakePieceGrid g (some gamePieceArg) rawPiece).length = g.length ∧
    (∀ k, ((bakePieceGrid g (some gamePieceArg) rawPiece).getD k []).length =
      (g.getD k []).length) ∧
    (∀ a b : Int, isOnBoard g a b = false →
      cellAt (bakePieceGrid g (some gamePieceArg) rawPiece) a b = cellAt g a b) := by
  refine ⟨?_, ?_, ?_⟩
  · exact (foldl_bakeStep_length rawPiece (bakeIndices rawPiece) g).1
  · exact (foldl_bakeStep_length rawPiece (bakeIndices rawPiece) g).2
  · exact fun a b hOff =>
      foldl_bakeStep_offboard rawPiece (bakeIndices rawPiece) g a b hOff

/-- C10 witness: baking an active piece that hangs off the top-left corner of
the 6 × 6 board keeps the dimensions and leaves the off-board coordinate
`(-1, -1)` reading as it did before. -/
theorem bakePiece_inbounds_safe_witness :
    (bakePieceGrid emptyBoard6x6 (some (oPieceAt 0 0)) (oPieceBaked (-1) (-1))).length = 6 ∧
    cellAt (bakePieceGrid emptyBoard6x6 (some (oPieceAt 0 0)) (oPieceBaked (-1) (-1)))
      (-1) (-1) =
      cellAt emptyBoard6x6 (-1) (-1) :=
  ⟨(bakePiece_inbounds_safe emptyBoard6x6 (oPieceAt 0 0) (oPieceBaked (-1) (-1))).1.trans
      (by decide),
   (bakePiece_inbounds_safe emptyBoard6x6 (oPieceAt 0 0) (oPieceBaked (-1) (-1))).2.2
      (-1) (-1) (by decide)⟩
